import Mathlib

/-!
Verification of the gesture-recognition core of the air-conductor
application: finger-extension detection, gesture-stability tracking,
sustained-note bookkeeping, pitch quantization (src/gestures.ts), the
music-engine note routing (src/music.ts and the main frame loop), and the
beat/tempo estimator (src/tempo.ts).

All JavaScript numbers appearing in this core are modelled as rationals;
the only irrational operation in the sources is `Math.sqrt`, modelled by
`ratSqrt` below (exact on perfect squares; every concrete evaluation in
this file takes place at a perfect square, and no general theorem depends
on the value `ratSqrt` returns).
-/

namespace AirConductor

/-- A MediaPipe hand landmark (tracking.ts): normalized coordinates.
The gesture and tempo code reads only `x` and `y`. -/
structure Landmark where
  x : ℚ
  y : ℚ
  z : ℚ
deriving DecidableEq, Repr

instance : Inhabited Landmark := ⟨⟨0, 0, 0⟩⟩

/-- Type `NormalizedLandmarkList` from tracking.ts. -/
abbrev NormalizedLandmarkList := List Landmark

/-- The ten instruments of `FINGER_INSTRUMENTS` (gestures.ts). -/
inductive FingerInstrument
  | Drums | Bass | Piano | Guitar | Percussion
  | Violin | Trumpet | Flute | Saxophone | Harp
deriving DecidableEq, Repr, Fintype

/-- The ten static finger slots (keys of `FINGER_INSTRUMENTS`). -/
inductive FingerKey
  | left_thumb | left_index | left_middle | left_ring | left_pinky
  | right_thumb | right_index | right_middle | right_ring | right_pinky
deriving DecidableEq, Repr, Fintype

/-- Map `FINGER_INSTRUMENTS` (gestures.ts lines 129-142). -/
def FINGER_INSTRUMENTS : FingerKey → FingerInstrument
  | .left_thumb => .Drums
  | .left_index => .Bass
  | .left_middle => .Piano
  | .left_ring => .Guitar
  | .left_pinky => .Percussion
  | .right_thumb => .Violin
  | .right_index => .Trumpet
  | .right_middle => .Flute
  | .right_ring => .Saxophone
  | .right_pinky => .Harp

/-- Record `FingerGesture` (gestures.ts lines 160-167). -/
structure FingerGesture where
  finger : FingerKey
  instrument : FingerInstrument
  active : Bool
  note : Option String
  velocity : ℚ
  sustained : Bool
deriving DecidableEq, Repr

/-- Value type of `GestureState.sustainedFingers`. -/
structure SustainedNote where
  note : String
  velocity : ℚ
  startTime : ℚ
deriving DecidableEq, Repr

/-- Value type of `GestureState.gestureStability`. -/
structure Stability where
  consecutiveFrames : ℕ
  lastConfidence : ℚ
deriving DecidableEq, Repr

/-- Field `GestureState.handPositions` (gestures.ts lines 175-178). -/
structure HandPositions where
  leftHeight : ℚ
  rightHeight : ℚ
deriving DecidableEq, Repr

section AssocMap

variable {κ : Type} [DecidableEq κ] {α : Type}

/-- JS `Map.get` / `Map.has`, on an association-list model of a Map. -/
def mapFind (m : List (κ × α)) (k : κ) : Option α :=
  (m.find? (fun p => decide (p.1 = k))).map Prod.snd

/-- JS `Map.set`: the only observation made of these maps is `mapFind`,
so insertion order is irrelevant. -/
def mapSet (m : List (κ × α)) (k : κ) (v : α) : List (κ × α) :=
  (k, v) :: m.filter (fun p => decide (p.1 ≠ k))

/-- JS `Map.delete`. -/
def mapDelete (m : List (κ × α)) (k : κ) : List (κ × α) :=
  m.filter (fun p => decide (p.1 ≠ k))

end AssocMap

/-- Record `GestureState` (gestures.ts lines 169-183); the two Maps are modelled
as association lists. -/
structure GestureState where
  sustainedFingers : List (FingerKey × SustainedNote)
  handPositions : HandPositions
  gestureStability : List (FingerKey × Stability)
deriving DecidableEq, Repr

/-- Function `createGestureState` (gestures.ts lines 451-460). -/
def createGestureState : GestureState :=
  { sustainedFingers := []
    handPositions := { leftHeight := 0.5, rightHeight := 0.5 }
    gestureStability := [] }

/-- Constant `FINGERTIP_INDICES` (gestures.ts line 186). -/
def FINGERTIP_INDICES : List ℕ := [4, 8, 12, 16, 20]

/-- Constant `FINGER_BASE_INDICES` (gestures.ts line 187). -/
def FINGER_BASE_INDICES : List ℕ := [3, 6, 10, 14, 18]

/-- Scale `PENTATONIC_SCALE` (gestures.ts line 190). -/
def PENTATONIC_SCALE : List String := ["C", "D", "E", "G", "A"]

/-- Scale `MAJOR_SCALE` (gestures.ts line 191). -/
def MAJOR_SCALE : List String := ["C", "D", "E", "F", "G", "A", "B"]

/-- Scale `BLUES_SCALE` (gestures.ts line 192). -/
def BLUES_SCALE : List String := ["C", "Eb", "F", "Gb", "G", "Bb"]

/-- Function `getScaleForInstrument` (gestures.ts lines 195-216).  Note the Bass
case maps an octave digit onto every scale entry. -/
def getScaleForInstrument (instrument : FingerInstrument) : List String :=
  match instrument with
  | .Drums | .Percussion => ["C", "C", "C", "C", "C"]
  | .Bass => (["C", "D", "E", "G", "A"].map (fun n => n ++ "2"))
  | .Piano | .Guitar => MAJOR_SCALE
  | .Violin | .Flute => PENTATONIC_SCALE
  | .Trumpet | .Saxophone => BLUES_SCALE
  | .Harp => ["C", "D", "F", "G", "A", "C", "D"]

/-- The scale-degree index selected by `quantizePitch` (gestures.ts line 224):
`Math.min(scale.length - 1, Math.max(0, Math.floor(x * scale.length)))`. -/
def scaleIndex (x : ℚ) (scaleLength : ℕ) : ℤ :=
  min ((scaleLength : ℤ) - 1) (max 0 ⌊x * (scaleLength : ℚ)⌋)

/-- Function `quantizePitch` (gestures.ts lines 218-232). -/
def quantizePitch (x : ℚ) (instrument : FingerInstrument) (fingerIndex : ℕ) : String :=
  let scale := getScaleForInstrument instrument
  let baseOctave : ℤ :=
    if instrument = .Bass then 2
    else if instrument ∈ [FingerInstrument.Drums, .Percussion] then 3
    else if instrument ∈ [FingerInstrument.Violin, .Flute, .Trumpet, .Saxophone] then 5
    else 4
  let idx := scaleIndex x scale.length
  let note := scale.getD idx.toNat ""
  let octaveOffset : ℤ := (fingerIndex : ℤ) - 2
  let finalOctave : ℤ := max 1 (min 7 (baseOctave + octaveOffset))
  note ++ toString finalOctave

/-- Model of `Math.sqrt` restricted to ℚ, computed as sqrt(n*d)/d with
`Nat.sqrt`.  Exact whenever the argument is the square of a rational (the
only case any theorem below evaluates); negative arguments (NaN in JS) do
not arise, the source only takes square roots of sums of squares. -/
def ratSqrt (q : ℚ) : ℚ :=
  ((Nat.sqrt (q.num.toNat * q.den) : ℚ)) / (q.den : ℚ)

/-- Primary activation threshold of the extension detector
(`confidence > 0.4`, gestures.ts line 255). -/
def activationThreshold : ℚ := 0.4

/-- Secondary confidence threshold of the stability tracker
(`extension.confidence > 0.3`, gestures.ts lines 289 and 376). -/
def stabilityConfidenceThreshold : ℚ := 0.3

/-- Result record of `isFingerExtended`. -/
structure ExtensionResult where
  extended : Bool
  confidence : ℚ
deriving DecidableEq, Repr

/-- Function `isFingerExtended` (gestures.ts lines 235-264).  Out-of-range
landmark reads (impossible for the ≥ 21-landmark hands the caller
guards for) are modelled with a default landmark. -/
def isFingerExtended (hand : NormalizedLandmarkList) (fingerIndex : ℕ) : ExtensionResult :=
  let tipIndex := FINGERTIP_INDICES.getD fingerIndex 0
  let baseIndex := FINGER_BASE_INDICES.getD fingerIndex 0
  let tip := hand.getD tipIndex default
  let base := hand.getD baseIndex default
  let fingerLength := ratSqrt ((tip.x - base.x) ^ 2 + (tip.y - base.y) ^ 2)
  let expectedLength : ℚ := if fingerIndex = 0 then 0.06 else 0.08
  let confidence := min 1 (fingerLength / expectedLength)
  let extended := decide (activationThreshold < confidence)
  let wrist := hand.getD 0 default
  let isPointingUp :=
    if fingerIndex = 0 then decide (tip.y < wrist.y - 0.1)
    else decide (tip.y < base.y - 0.05)
  ⟨extended && isPointingUp, confidence⟩

/-- The release gesture pushed when a slot stops (gestures.ts lines
333-340, 349-356, 420-427, 436-443). -/
def releaseGesture (fingerKey : FingerKey) : FingerGesture :=
  { finger := fingerKey
    instrument := FINGER_INSTRUMENTS fingerKey
    active := false
    note := none
    velocity := 0
    sustained := false }

/-- The per-finger body of the `FINGERTIP_INDICES.forEach` loop of
`detectAllFingerGestures` (gestures.ts lines 278-341; the right-hand
block, lines 365-428, is a verbatim copy over the right-hand keys). -/
def processFinger (hand : NormalizedLandmarkList) (now : ℚ) (fingerIdx tipIndex : ℕ)
    (fingerKey : FingerKey) (s : GestureState) : GestureState × List FingerGesture :=
  let extension := isFingerExtended hand fingerIdx
  let isCurrentlyExtended := extension.extended
  let wasSustained := (mapFind s.sustainedFingers fingerKey).isSome
  let stability0 := (mapFind s.gestureStability fingerKey).getD ⟨0, 0⟩
  let stability : Stability :=
    if isCurrentlyExtended && decide (stabilityConfidenceThreshold < extension.confidence)
    then ⟨stability0.consecutiveFrames + 1, extension.confidence⟩
    else ⟨0, 0⟩
  let s := { s with gestureStability := mapSet s.gestureStability fingerKey stability }
  let isStableGesture := decide (1 ≤ stability.consecutiveFrames)
  if isCurrentlyExtended && isStableGesture then
    let tip := hand.getD tipIndex default
    let note := quantizePitch tip.x (FINGER_INSTRUMENTS fingerKey) fingerIdx
    let velocity := max 0.3 extension.confidence
    let s :=
      if !wasSustained && decide (activationThreshold < extension.confidence)
      then { s with sustainedFingers :=
                      mapSet s.sustainedFingers fingerKey ⟨note, velocity, now⟩ }
      else s
    (s, [{ finger := fingerKey
           instrument := FINGER_INSTRUMENTS fingerKey
           active := true
           note := some note
           velocity := velocity
           sustained := decide (activationThreshold < extension.confidence) }])
  else if wasSustained && decide (stability.consecutiveFrames < 2) then
    ({ s with sustainedFingers := mapDelete s.sustainedFingers fingerKey },
     [releaseGesture fingerKey])
  else
    (s, [])

/-- The `forEach` over `FINGERTIP_INDICES` of one hand's block, as a fold
over the `(fingerIdx, tipIndex)` pairs. -/
def processFingers (hand : NormalizedLandmarkList) (now : ℚ) (fingerNames : List FingerKey) :
    List (ℕ × ℕ) → GestureState → GestureState × List FingerGesture
  | [], s => (s, [])
  | (fingerIdx, tipIndex) :: rest, s =>
      let fingerKey := fingerNames.getD fingerIdx .left_thumb
      let r1 := processFinger hand now fingerIdx tipIndex fingerKey s
      let r2 := processFingers hand now fingerNames rest r1.1
      (r2.1, r1.2 ++ r2.2)

/-- The `else` block of a hand's section: stop every sustained slot of
that side (gestures.ts lines 343-359 and 430-446). -/
def releaseAllSustained : List FingerKey → GestureState → GestureState × List FingerGesture
  | [], s => (s, [])
  | fingerKey :: rest, s =>
      let r1 : GestureState × List FingerGesture :=
        if (mapFind s.sustainedFingers fingerKey).isSome then
          ({ s with sustainedFingers := mapDelete s.sustainedFingers fingerKey },
           [releaseGesture fingerKey])
        else (s, [])
      let r2 := releaseAllSustained rest r1.1
      (r2.1, r1.2 ++ r2.2)

/-- The five left-hand slot names (gestures.ts lines 279, 345). -/
def leftFingerNames : List FingerKey :=
  [.left_thumb, .left_index, .left_middle, .left_ring, .left_pinky]

/-- The five right-hand slot names (gestures.ts lines 366, 432). -/
def rightFingerNames : List FingerKey :=
  [.right_thumb, .right_index, .right_middle, .right_ring, .right_pinky]

/-- Constant `FINGERTIP_INDICES` paired with positions, the iteration space
of the `forEach` loops. -/
def fingertipPairs : List (ℕ × ℕ) := FINGERTIP_INDICES.enum

/-- One hand side of `detectAllFingerGestures`: the
`hand && hand.length >= 21` guard selecting between the finger loop and
the release-all block. -/
def processSide (hand : Option NormalizedLandmarkList) (now : ℚ)
    (fingerNames : List FingerKey) (setHeight : GestureState → ℚ → GestureState)
    (s : GestureState) : GestureState × List FingerGesture :=
  match hand with
  | some h =>
      if 21 ≤ h.length then
        processFingers h now fingerNames fingertipPairs (setHeight s (h.getD 0 default).y)
      else releaseAllSustained fingerNames s
  | none => releaseAllSustained fingerNames s

/-- Record the left-hand height (gestures.ts line 276). -/
def setLeftHeight (s : GestureState) (y : ℚ) : GestureState :=
  { s with handPositions := { s.handPositions with leftHeight := y } }

/-- Record the right-hand height (gestures.ts line 363). -/
def setRightHeight (s : GestureState) (y : ℚ) : GestureState :=
  { s with handPositions := { s.handPositions with rightHeight := y } }

/-- Function `detectAllFingerGestures` (gestures.ts lines 266-449), with the
state passed and returned explicitly and `performance.now()` supplied as
the `now` argument.  Returns the updated state and the per-frame gesture
event list. -/
def detectAllFingerGestures (leftHand rightHand : Option NormalizedLandmarkList)
    (now : ℚ) (s : GestureState) : GestureState × List FingerGesture :=
  let rl := processSide leftHand now leftFingerNames setLeftHeight s
  let rr := processSide rightHand now rightFingerNames setRightHeight rl.1
  (rr.1, rl.2 ++ rr.2)

/-- The six music styles (keys of `CHORD_PROGRESSIONS`, music.ts). -/
inductive MusicStyle
  | pop | jazz | blues | classical | rock | ambient
deriving DecidableEq, Repr, Fintype

/-- Table `CHORD_PROGRESSIONS` (music.ts lines 10-17). -/
def CHORD_PROGRESSIONS : MusicStyle → List String
  | .pop => ["C", "Am", "F", "G", "C", "F", "Am", "G"]
  | .jazz => ["Cmaj7", "A7", "Dm7", "G7", "Em7", "A7", "Dm7", "G7"]
  | .blues => ["C7", "F7", "C7", "C7", "F7", "F7", "C7", "G7"]
  | .classical => ["C", "F", "G", "Am", "F", "C", "G", "C"]
  | .rock => ["C", "F", "G", "Am", "F", "C", "Bb", "F"]
  | .ambient => ["Cmaj9", "Fmaj9", "Am7", "G6", "Dm9", "Gmaj7", "Cmaj9", "Fmaj9"]

/-- Table `CHORD_NOTES` (music.ts lines 19-28); a missing key yields `[]`, the
`|| []` default applied at the lookup site. -/
def CHORD_NOTES : String → List String
  | "C" => ["C", "E", "G"]
  | "Am" => ["A", "C", "E"]
  | "F" => ["F", "A", "C"]
  | "G" => ["G", "B", "D"]
  | "Cmaj7" => ["C", "E", "G", "B"]
  | "A7" => ["A", "C#", "E", "G"]
  | "Dm7" => ["D", "F", "A", "C"]
  | "G7" => ["G", "B", "D", "F"]
  | "C7" => ["C", "E", "G", "Bb"]
  | "F7" => ["F", "A", "C", "Eb"]
  | "Em7" => ["E", "G", "B", "D"]
  | "Bb" => ["Bb", "D", "F"]
  | "Cmaj9" => ["C", "E", "G", "B", "D"]
  | "Fmaj9" => ["F", "A", "C", "E", "G"]
  | "Am7" => ["A", "C", "E", "G"]
  | "G6" => ["G", "B", "D", "E"]
  | "Dm9" => ["D", "F", "A", "C", "E"]
  | "Gmaj7" => ["G", "B", "D", "F#"]
  | _ => []

/-- Scale `SCALES.major` (music.ts line 31). -/
def SCALES_major : List String := ["C", "D", "E", "F", "G", "A", "B"]

/-- Scale `SCALES.minor` (music.ts line 32). -/
def SCALES_minor : List String := ["C", "D", "Eb", "F", "G", "Ab", "Bb"]

/-- Scale `SCALES.pentatonic` (music.ts line 33). -/
def SCALES_pentatonic : List String := ["C", "D", "E", "G", "A"]

/-- Scale `SCALES.blues` (music.ts line 34). -/
def SCALES_blues : List String := ["C", "Eb", "F", "Gb", "G", "Bb"]

/-- Scale `SCALES.dorian` (music.ts line 35). -/
def SCALES_dorian : List String := ["C", "D", "Eb", "F", "G", "A", "Bb"]

/-- Scale `SCALES.mixolydian` (music.ts line 36). -/
def SCALES_mixolydian : List String := ["C", "D", "E", "F", "G", "A", "Bb"]

/-- Scale `SCALES.lydian` (music.ts line 37). -/
def SCALES_lydian : List String := ["C", "D", "E", "F#", "G", "A", "B"]

/-- Record `ActiveNote` (music.ts lines 4-7); the synth reference is identified
by the instrument name, so only the note is carried. -/
structure ActiveNote where
  note : String
deriving DecidableEq, Repr

/-- The mutable `MusicEngine` fields that the note-routing path reads and
writes: `activeNotes` (a `null`-able record, modelled as an association
list whose absent keys are the `null` entries), `currentStyle` and
`currentChordIndex`.  The audio-graph objects, timers and the random
harmony/bassline layers (separate backing synths, never per-slot note
events) are outside the model. -/
structure MusicEngineState where
  activeNotes : List (FingerInstrument × ActiveNote)
  currentStyle : MusicStyle
  currentChordIndex : ℕ
deriving DecidableEq, Repr

/-- The engine state right after the constructor runs: every
`activeNotes` entry `null`, style `pop`, chord index 0. -/
def initialMusicEngineState : MusicEngineState :=
  { activeNotes := [], currentStyle := .pop, currentChordIndex := 0 }

/-- Observable per-slot note events of the music engine: `noteStarted`
is the `triggerAttack` call of `playInstrument`, `noteStopped` a
`triggerRelease` call. -/
inductive MusicEvent
  | noteStarted (instrument : FingerInstrument) (note : String) (velocity : ℚ)
  | noteStopped (instrument : FingerInstrument) (note : String)
deriving DecidableEq, Repr

/-- Model of `note.replace(/\d/, '')`: remove the first digit character. -/
def removeFirstDigit : List Char → List Char
  | [] => []
  | c :: rest => if c.isDigit then rest else c :: removeFirstDigit rest

/-- Model of `note.match(/\d/)`: the first digit character, if any. -/
def firstDigit : List Char → Option Char
  | [] => none
  | c :: rest => if c.isDigit then some c else firstDigit rest

/-- Function `getCurrentChord` (music.ts lines 317-320). -/
def getCurrentChord (ms : MusicEngineState) : String :=
  (CHORD_PROGRESSIONS ms.currentStyle).getD ms.currentChordIndex ""

/-- Function `getCurrentScale` (music.ts lines 268-276). -/
def getCurrentScale (ms : MusicEngineState) : List String :=
  match ms.currentStyle with
  | .jazz => SCALES_dorian
  | .blues => SCALES_blues
  | .ambient => SCALES_lydian
  | .classical => SCALES_major
  | _ => SCALES_pentatonic

/-- Function `musicallyEnhance` (music.ts lines 243-266).  The `%` is on
positive operands (`noteIndex + offset + length ≥ 3`), where the JS
remainder and `Int.emod` agree. -/
def musicallyEnhance (ms : MusicEngineState) (note : String) : String :=
  let currentChord := getCurrentChord ms
  let currentScale := getCurrentScale ms
  let noteName : String := ⟨removeFirstDigit note.data⟩
  let octave : String :=
    match firstDigit note.data with
    | some c => ⟨[c]⟩
    | none => "4"
  let chordNotes := CHORD_NOTES currentChord
  if noteName ∈ chordNotes then note
  else
    match currentScale.findIdx? (fun nm => decide (nm = noteName)) with
    | none => note
    | some noteIndex =>
        let len : ℤ := currentScale.length
        let hit := ([0, 1, -1, 2, -2] : List ℤ).findSome? (fun offset =>
          let targetIndex := ((noteIndex : ℤ) + offset + len) % len
          let targetNote := currentScale.getD targetIndex.toNat ""
          if targetNote ∈ chordNotes then some targetNote else none)
        match hit with
        | some targetNote => targetNote ++ octave
        | none => note

/-- Whether the slot's synthesizer object has a `triggerRelease` method:
`Tone.PluckSynth` (Guitar, Harp) does not, every other synth class used
does; the source guards releases with `'triggerRelease' in synth`. -/
def synthHasTriggerRelease : FingerInstrument → Bool
  | .Guitar | .Harp => false
  | _ => true

/-- The attack tail of `playInstrument` (music.ts lines 227-241): note
enhancement, `triggerAttack` and the `activeNotes` update;
`releaseEvents` carries the `triggerRelease` of a previously sounding
different note. -/
def playAttack (ms : MusicEngineState) (instrument : FingerInstrument) (note : String)
    (velocity : ℚ) (releaseEvents : List MusicEvent) : MusicEngineState × List MusicEvent :=
  let isRhythm := instrument ∈ [FingerInstrument.Drums, .Bass, .Percussion]
  let enhancedNote := if isRhythm then note else musicallyEnhance ms note
  ({ ms with activeNotes := mapSet ms.activeNotes instrument ⟨enhancedNote⟩ },
   releaseEvents ++ [.noteStarted instrument enhancedNote velocity])

/-- Method `MusicEngine.playInstrument` (music.ts lines 199-241).  The synth
lookup always succeeds (all ten instruments are created in the
constructor); the random harmony/bassline backing calls touch separate
synths only and emit no per-slot events. -/
def playInstrument (ms : MusicEngineState) (instrument : FingerInstrument) (note : String)
    (velocity : ℚ) : MusicEngineState × List MusicEvent :=
  match mapFind ms.activeNotes instrument with
  | some cur =>
      if cur.note = note then (ms, [])
      else
        playAttack ms instrument note velocity
          (if synthHasTriggerRelease instrument then [.noteStopped instrument cur.note] else [])
  | none => playAttack ms instrument note velocity []

/-- Method `MusicEngine.releaseInstrument` (music.ts lines 439-448). -/
def releaseInstrument (ms : MusicEngineState) (instrument : FingerInstrument) :
    MusicEngineState × List MusicEvent :=
  match mapFind ms.activeNotes instrument with
  | some cur =>
      ({ ms with activeNotes := mapDelete ms.activeNotes instrument },
       if synthHasTriggerRelease instrument then [.noteStopped instrument cur.note] else [])
  | none => (ms, [])

/-- Routing of one gesture in the main frame loop:
`if (gesture.active && gesture.note) playInstrument(...) else if
(!gesture.active) releaseInstrument(...)`. -/
def routeGesture (ms : MusicEngineState) (gesture : FingerGesture) :
    MusicEngineState × List MusicEvent :=
  match gesture.active, gesture.note with
  | true, some note => playInstrument ms gesture.instrument note gesture.velocity
  | true, none => (ms, [])
  | false, _ => releaseInstrument ms gesture.instrument

/-- Routing of a frame's whole gesture list through the music engine. -/
def routeGestures (gestures : List FingerGesture) (ms : MusicEngineState) :
    MusicEngineState × List MusicEvent :=
  match gestures with
  | [] => (ms, [])
  | g :: rest =>
      let r1 := routeGesture ms g
      let r2 := routeGestures rest r1.1
      (r2.1, r1.2 ++ r2.2)

/-- One frame of the main loop: gesture detection followed by music
routing. -/
def processFrame (leftHand rightHand : Option NormalizedLandmarkList) (now : ℚ)
    (gs : GestureState) (ms : MusicEngineState) :
    (GestureState × MusicEngineState) × List MusicEvent :=
  let rd := detectAllFingerGestures leftHand rightHand now gs
  let rm := routeGestures rd.2 ms
  ((rd.1, rm.1), rm.2)

/-- Wrist motion directions of the beat estimator (tempo.ts). -/
inductive BeatDirection
  | up | down
deriving DecidableEq, Repr, Fintype

/-- Record `BeatEstimatorState` (tempo.ts lines 3-8). -/
structure BeatEstimatorState where
  lastY : Option ℚ
  lastDirection : Option BeatDirection
  lastBeatTime : Option ℚ
  intervals : List ℚ
deriving DecidableEq, Repr

/-- The fresh estimator state created at session start. -/
def initBeatState : BeatEstimatorState :=
  { lastY := none, lastDirection := none, lastBeatTime := none, intervals := [] }

/-- Expression `dy > 0 ? 'down' : 'up'` (tempo.ts line 17). -/
def beatDirectionOf (dy : ℚ) : BeatDirection :=
  if dy > 0 then .down else .up

/-- JS truthiness of `state.lastBeatTime` in `if (state.lastBeatTime)`
(tempo.ts line 20): `null` and `0` are falsy. -/
def truthyTime : Option ℚ → Bool
  | none => false
  | some t => decide (t ≠ 0)

/-- Function `estimateBeat` (tempo.ts lines 10-33), on the wrist y-coordinate
`y = hand[0].y`; returns the updated state and the frame's `bpm`. -/
def estimateBeat (y now : ℚ) (s : BeatEstimatorState) : BeatEstimatorState × Option ℚ :=
  match s.lastY with
  | none => ({ s with lastY := some y }, none)
  | some lastY =>
      let dy := y - lastY
      let direction := beatDirectionOf dy
      let fires :=
        match s.lastDirection with
        | none => false
        | some lastDir => decide (direction ≠ lastDir) && decide (direction = BeatDirection.up)
      if fires then
        if truthyTime s.lastBeatTime then
          let interval := now - (s.lastBeatTime.getD 0)
          let pushed := s.intervals ++ [interval]
          let intervals := if 6 < pushed.length then pushed.tail else pushed
          let avg := intervals.sum / (intervals.length : ℚ)
          ({ lastY := some y, lastDirection := some direction,
             lastBeatTime := some now, intervals := intervals },
           some (60000 / avg))
        else
          ({ lastY := some y, lastDirection := some direction,
             lastBeatTime := some now, intervals := s.intervals },
           none)
      else
        ({ s with lastY := some y, lastDirection := some direction }, none)

/-- Run the estimator over a list of `(y, now)` frames, keeping the final
state and the last frame's `bpm` output. -/
def runEstimator (frames : List (ℚ × ℚ)) (p : BeatEstimatorState × Option ℚ) :
    BeatEstimatorState × Option ℚ :=
  frames.foldl (fun acc f => estimateBeat f.1 f.2 acc.1) p

/-- A synthetic periodic conducting motion with period `T = 2 * halfT`:
frame `i` is at time `i * halfT`, at the low wrist position on even
frames and the high one on odd frames. -/
def beatFrames (lo hi halfT : ℚ) (n : ℕ) : List (ℚ × ℚ) :=
  (List.range n).map (fun (i : ℕ) => ((if i % 2 = 0 then lo else hi), (i : ℚ) * halfT))

/-- Whether the frame fires a beat (tempo.ts line 18): the previous
direction exists and differs from the current one, and the current one is
`up`; since there are only two directions this says the previous
direction was `down` and the current y does not exceed the remembered
one. -/
def beatFires (y : ℚ) (s : BeatEstimatorState) : Bool :=
  match s.lastY, s.lastDirection with
  | some ly, some BeatDirection.down => decide (y - ly ≤ 0)
  | _, _ => false

/-- Membership of a slot in the left-hand side. -/
def onLeftSide (k : FingerKey) : Bool := decide (k ∈ leftFingerNames)

/-- Membership of a slot in the right-hand side. -/
def onRightSide (k : FingerKey) : Bool := decide (k ∈ rightFingerNames)

/-- The guard under which the stability tracker increments
`consecutiveFrames` (gestures.ts line 289):
`isCurrentlyExtended && extension.confidence > 0.3`. -/
def stabilityIncrementCondition (hand : NormalizedLandmarkList) (fingerIndex : ℕ) : Bool :=
  (isFingerExtended hand fingerIndex).extended &&
    decide (stabilityConfidenceThreshold < (isFingerExtended hand fingerIndex).confidence)

/-- A 21-landmark left hand whose thumb is extended and points up
(tip at landmark 4 straight above its base at landmark 3, both above
reach of the wrist margin); every other finger is fully curled.  All
finger lengths are perfect squares, so `ratSqrt` is exact here. -/
def demoThumbHand : NormalizedLandmarkList :=
  (List.range 21).map (fun (i : ℕ) =>
    if i = 3 then ⟨0.5, 0.5, 0⟩
    else if i = 4 then ⟨0.5, 0.3, 0⟩
    else ⟨0.5, 0.9, 0⟩)

/-- A 21-landmark left hand whose middle finger (slot `left_middle`,
instrument Piano) is extended at `x = 0.2`, which quantizes to the note
`"D4"`; every other finger is fully curled. -/
def demoPianoHand : NormalizedLandmarkList :=
  (List.range 21).map (fun (i : ℕ) =>
    if i = 10 then ⟨0.2, 0.5, 0⟩
    else if i = 12 then ⟨0.2, 0.3, 0⟩
    else ⟨0.5, 0.9, 0⟩)

/-- A gesture state in which exactly one left-hand slot (`left_thumb`)
holds a sustained note. -/
def singleSustainedState : GestureState :=
  { sustainedFingers := [(.left_thumb, ⟨"C1", 1, 0⟩)]
    handPositions := { leftHeight := 0.5, rightHeight := 0.5 }
    gestureStability := [] }

/-- The gesture state after one frame of `demoThumbHand`: the left
thumb is sustained and its stability counter is 1. -/
def frameOneState : GestureState :=
  (detectAllFingerGestures (some demoThumbHand) none 0 createGestureState).1

/-- First frame of the held-Piano-note run: `demoPianoHand` processed
from the initial states. -/
def pianoFrame1 : (GestureState × MusicEngineState) × List MusicEvent :=
  processFrame (some demoPianoHand) none 0 createGestureState initialMusicEngineState

/-- Second frame of the held-Piano-note run: the identical hand again,
one frame later. -/
def pianoFrame2 : (GestureState × MusicEngineState) × List MusicEvent :=
  processFrame (some demoPianoHand) none 1 pianoFrame1.1.1 pianoFrame1.1.2

/-- First of two consecutive identical `playInstrument` calls for the
Piano slot with the note `"D4"`. -/
def pianoPlay1 : MusicEngineState × List MusicEvent :=
  playInstrument initialMusicEngineState .Piano "D4" 0.7

/-- Second of the two consecutive identical `playInstrument` calls. -/
def pianoPlay2 : MusicEngineState × List MusicEvent :=
  playInstrument pianoPlay1.1 .Piano "D4" 0.7

section AssocMapLemmas

variable {κ : Type} [DecidableEq κ] {α : Type}

theorem find?_filter_ne (m : List (κ × α)) (k k2 : κ) (h : k2 ≠ k) :
    (m.filter (fun p => decide (p.1 ≠ k))).find? (fun p => decide (p.1 = k2)) =
      m.find? (fun p => decide (p.1 = k2)) := by
  induction m with
  | nil => rfl
  | cons a t ih =>
      by_cases ha : a.1 = k
      · rw [List.filter_cons_of_neg (by simp [ha]), List.find?_cons_of_neg _ (by simp [ha, h.symm])]
        exact ih
      · rw [List.filter_cons_of_pos (by simp [ha])]
        by_cases hb : a.1 = k2
        · rw [List.find?_cons_of_pos _ (by simp [hb]), List.find?_cons_of_pos _ (by simp [hb])]
        · rw [List.find?_cons_of_neg _ (by simp [hb]), List.find?_cons_of_neg _ (by simp [hb])]
          exact ih

theorem mapFind_mapSet_self (m : List (κ × α)) (k : κ) (v : α) :
    mapFind (mapSet m k v) k = some v := by
  unfold mapFind mapSet
  rw [List.find?_cons_of_pos _ (by simp)]
  rfl

theorem mapFind_mapSet_ne (m : List (κ × α)) (k k2 : κ) (v : α) (h : k2 ≠ k) :
    mapFind (mapSet m k v) k2 = mapFind m k2 := by
  unfold mapFind mapSet
  rw [List.find?_cons_of_neg _ (by simp [h.symm]), find?_filter_ne m k k2 h]

theorem mapFind_mapDelete_self (m : List (κ × α)) (k : κ) :
    mapFind (mapDelete m k) k = none := by
  unfold mapFind mapDelete
  rw [List.find?_eq_none.mpr]
  · rfl
  · intro x hx
    have hx2 := (List.mem_filter.mp hx).2
    simp at hx2 ⊢
    exact hx2

theorem mapFind_mapDelete_ne (m : List (κ × α)) (k k2 : κ) (h : k2 ≠ k) :
    mapFind (mapDelete m k) k2 = mapFind m k2 := by
  unfold mapFind mapDelete
  rw [find?_filter_ne m k k2 h]

end AssocMapLemmas

theorem processFinger_handPositions (hand : NormalizedLandmarkList) (now : ℚ) (i t : ℕ)
    (k : FingerKey) (s : GestureState) :
    (processFinger hand now i t k s).1.handPositions = s.handPositions := by
  unfold processFinger
  dsimp only
  split_ifs <;> rfl

theorem processFinger_other_keys (hand : NormalizedLandmarkList) (now : ℚ) (i t : ℕ)
    (k : FingerKey) (s : GestureState) (k2 : FingerKey) (hne : k2 ≠ k) :
    mapFind (processFinger hand now i t k s).1.sustainedFingers k2
        = mapFind s.sustainedFingers k2
    ∧ mapFind (processFinger hand now i t k s).1.gestureStability k2
        = mapFind s.gestureStability k2 := by
  unfold processFinger
  dsimp only
  split_ifs <;>
    exact ⟨by simp [mapFind_mapSet_ne _ _ _ _ hne, mapFind_mapDelete_ne _ _ _ hne],
           by simp [mapFind_mapSet_ne _ _ _ _ hne]⟩

theorem processFinger_finger (hand : NormalizedLandmarkList) (now : ℚ) (i t : ℕ)
    (k : FingerKey) (s : GestureState) :
    ∀ g ∈ (processFinger hand now i t k s).2, g.finger = k := by
  unfold processFinger
  dsimp only
  split_ifs <;> intro g hg <;> simp at hg <;> simp [hg, releaseGesture]

theorem processFingers_other_keys (hand : NormalizedLandmarkList) (now : ℚ)
    (fingerNames : List FingerKey) (pairs : List (ℕ × ℕ)) (s : GestureState) (k2 : FingerKey)
    (h : ∀ p ∈ pairs, fingerNames.getD p.1 FingerKey.left_thumb ≠ k2) :
    mapFind (processFingers hand now fingerNames pairs s).1.sustainedFingers k2
        = mapFind s.sustainedFingers k2
    ∧ mapFind (processFingers hand now fingerNames pairs s).1.gestureStability k2
        = mapFind s.gestureStability k2
    ∧ (processFingers hand now fingerNames pairs s).1.handPositions = s.handPositions := by
  induction pairs generalizing s with
  | nil => exact ⟨rfl, rfl, rfl⟩
  | cons p rest ih =>
      obtain ⟨i, t⟩ := p
      have hk := h (i, t) (by simp)
      have h2 : ∀ q ∈ rest, fingerNames.getD q.1 FingerKey.left_thumb ≠ k2 :=
        fun q hq => h q (by simp [hq])
      simp only [processFingers]
      obtain ⟨ha, hb⟩ := processFinger_other_keys hand now i t
        (fingerNames.getD i FingerKey.left_thumb) s k2 (Ne.symm hk)
      obtain ⟨hc, hd, he⟩ := ih _ h2
      exact ⟨hc.trans ha, hd.trans hb,
        he.trans (processFinger_handPositions hand now i t _ s)⟩

theorem processFingers_finger (hand : NormalizedLandmarkList) (now : ℚ)
    (fingerNames : List FingerKey) (pairs : List (ℕ × ℕ)) (s : GestureState) :
    ∀ g ∈ (processFingers hand now fingerNames pairs s).2,
      g.finger ∈ pairs.map (fun p => fingerNames.getD p.1 FingerKey.left_thumb) := by
  induction pairs generalizing s with
  | nil => intro g hg; simp [processFingers] at hg
  | cons p rest ih =>
      obtain ⟨i, t⟩ := p
      intro g hg
      simp only [processFingers] at hg
      rw [List.mem_append] at hg
      simp only [List.map_cons, List.mem_cons]
      rcases hg with h1 | h2
      · exact Or.inl (processFinger_finger hand now i t _ s g h1)
      · exact Or.inr (ih _ g h2)

theorem releaseAllSustained_untouched (keys : List FingerKey) (s : GestureState) :
    (releaseAllSustained keys s).1.gestureStability = s.gestureStability
    ∧ (releaseAllSustained keys s).1.handPositions = s.handPositions := by
  induction keys generalizing s with
  | nil => exact ⟨rfl, rfl⟩
  | cons k rest ih =>
      simp only [releaseAllSustained]
      by_cases hk : (mapFind s.sustainedFingers k).isSome <;> simp only [hk] <;>
        simpa using ih _

theorem releaseAllSustained_find (keys : List FingerKey) (s : GestureState) (k2 : FingerKey) :
    mapFind (releaseAllSustained keys s).1.sustainedFingers k2 =
      if k2 ∈ keys then none else mapFind s.sustainedFingers k2 := by
  induction keys generalizing s with
  | nil => simp [releaseAllSustained]
  | cons k rest ih =>
      simp only [releaseAllSustained]
      by_cases hk : (mapFind s.sustainedFingers k).isSome <;> simp only [hk] <;>
        rw [ih] <;> by_cases hmem : k2 ∈ rest <;> simp only [hmem, List.mem_cons] <;>
        by_cases heq : k2 = k <;> simp [heq, hmem]
      · exact mapFind_mapDelete_self _ _
      · exact mapFind_mapDelete_ne _ _ _ heq
      · subst heq
        exact Option.not_isSome_iff_eq_none.mp hk

theorem releaseAllSustained_finger (keys : List FingerKey) (s : GestureState) :
    ∀ g ∈ (releaseAllSustained keys s).2, g.finger ∈ keys := by
  induction keys generalizing s with
  | nil => intro g hg; simp [releaseAllSustained] at hg
  | cons k rest ih =>
      intro g hg
      simp only [releaseAllSustained] at hg
      by_cases hk : (mapFind s.sustainedFingers k).isSome <;>
        simp only [hk, if_true, if_false, ite_true, ite_false] at hg
      · rw [List.mem_append] at hg
        rcases hg with h1 | h2
        · simp at h1
          simp [h1, releaseGesture]
        · exact List.mem_cons_of_mem _ (ih _ g h2)
      · exact List.mem_cons_of_mem _ (ih _ g (by simpa using hg))

theorem releaseAllSustained_events (keys : List FingerKey) (s : GestureState)
    (hnd : keys.Nodup) :
    (releaseAllSustained keys s).2 =
      (keys.filter (fun k => (mapFind s.sustainedFingers k).isSome)).map releaseGesture := by
  induction keys generalizing s with
  | nil => rfl
  | cons k rest ih =>
      obtain ⟨hk_rest, hnd_rest⟩ := List.nodup_cons.mp hnd
      simp only [releaseAllSustained]
      by_cases hk : (mapFind s.sustainedFingers k).isSome
      · rw [List.filter_cons_of_pos (by simpa using hk)]
        simp only [hk, if_true, ite_true, List.map_cons]
        rw [ih _ hnd_rest]
        simp only [List.singleton_append, List.cons.injEq, true_and]
        congr 1
        apply List.filter_congr
        intro x hx
        have hxk : x ≠ k := fun hcontra => hk_rest (hcontra ▸ hx)
        simp only [mapFind_mapDelete_ne _ _ _ hxk]
      · rw [List.filter_cons_of_neg (by simpa using hk)]
        simp only [hk, if_false, ite_false, List.nil_append]
        exact ih _ hnd_rest

theorem processSide_finger (hand : Option NormalizedLandmarkList) (now : ℚ)
    (names : List FingerKey) (setH : GestureState → ℚ → GestureState) (s : GestureState)
    (hnames : fingertipPairs.map (fun p => names.getD p.1 FingerKey.left_thumb) = names) :
    ∀ g ∈ (processSide hand now names setH s).2, g.finger ∈ names := by
  intro g hg
  cases hand with
  | none =>
      simp only [processSide] at hg
      exact releaseAllSustained_finger names s g hg
  | some h =>
      simp only [processSide] at hg
      by_cases hlen : 21 ≤ h.length
      · rw [if_pos hlen] at hg
        have := processFingers_finger h now names fingertipPairs _ g hg
        rwa [hnames] at this
      · rw [if_neg hlen] at hg
        exact releaseAllSustained_finger names s g hg

theorem processSide_other_keys (hand : Option NormalizedLandmarkList) (now : ℚ)
    (names : List FingerKey) (setH : GestureState → ℚ → GestureState) (s : GestureState)
    (k2 : FingerKey)
    (hnames : fingertipPairs.map (fun p => names.getD p.1 FingerKey.left_thumb) = names)
    (hk2 : k2 ∉ names)
    (hsus : ∀ s2 y, (setH s2 y).sustainedFingers = s2.sustainedFingers)
    (hstab : ∀ s2 y, (setH s2 y).gestureStability = s2.gestureStability) :
    mapFind (processSide hand now names setH s).1.sustainedFingers k2
        = mapFind s.sustainedFingers k2
    ∧ mapFind (processSide hand now names setH s).1.gestureStability k2
        = mapFind s.gestureStability k2 := by
  have habsent :
      mapFind (releaseAllSustained names s).1.sustainedFingers k2
          = mapFind s.sustainedFingers k2
      ∧ mapFind (releaseAllSustained names s).1.gestureStability k2
          = mapFind s.gestureStability k2 := by
    constructor
    · rw [releaseAllSustained_find, if_neg hk2]
    · rw [(releaseAllSustained_untouched names s).1]
  cases hand with
  | none => simpa only [processSide] using habsent
  | some h =>
      simp only [processSide]
      by_cases hlen : 21 ≤ h.length
      · rw [if_pos hlen]
        have hpair : ∀ p ∈ fingertipPairs, names.getD p.1 FingerKey.left_thumb ≠ k2 := by
          intro p hp hcontra
          exact hk2 (hcontra ▸ (hnames ▸ List.mem_map_of_mem _ hp))
        obtain ⟨ha, hb, _⟩ := processFingers_other_keys h now names fingertipPairs
          (setH s (h.getD 0 default).y) k2 hpair
        rw [hsus s, hstab s] at *
        exact ⟨ha, hb⟩
      · rw [if_neg hlen]
        exact habsent

theorem processSide_none (now : ℚ) (names : List FingerKey)
    (setH : GestureState → ℚ → GestureState) (s : GestureState) :
    processSide none now names setH s = releaseAllSustained names s := rfl

theorem detect_leftAbsent_filter (rh : Option NormalizedLandmarkList) (now : ℚ)
    (s : GestureState) :
    (detectAllFingerGestures none rh now s).2.filter (fun g => onLeftSide g.finger) =
      (leftFingerNames.filter (fun k => (mapFind s.sustainedFingers k).isSome)).map
        releaseGesture := by
  unfold detectAllFingerGestures
  dsimp only
  rw [processSide_none, List.filter_append]
  have h1 : (releaseAllSustained leftFingerNames s).2.filter (fun g => onLeftSide g.finger)
      = (releaseAllSustained leftFingerNames s).2 := by
    rw [List.filter_eq_self]
    intro g hg
    have hmem := releaseAllSustained_finger leftFingerNames s g hg
    simp [onLeftSide, hmem]
  have h2 : ((processSide rh now rightFingerNames setRightHeight
        (releaseAllSustained leftFingerNames s).1).2).filter (fun g => onLeftSide g.finger)
      = [] := by
    rw [List.filter_eq_nil_iff]
    intro g hg
    have hmem := processSide_finger rh now rightFingerNames setRightHeight _ (by decide) g hg
    have hdisj : ∀ k : FingerKey, k ∈ rightFingerNames → onLeftSide k = false := by decide
    simp [hdisj g.finger hmem]
  rw [h1, h2, List.append_nil]
  exact releaseAllSustained_events leftFingerNames s (by decide)

theorem detect_rightAbsent_filter (lh : Option NormalizedLandmarkList) (now : ℚ)
    (s : GestureState) :
    (detectAllFingerGestures lh none now s).2.filter (fun g => onRightSide g.finger) =
      (rightFingerNames.filter (fun k => (mapFind s.sustainedFingers k).isSome)).map
        releaseGesture := by
  unfold detectAllFingerGestures
  dsimp only
  rw [processSide_none, List.filter_append]
  have h1 : ((processSide lh now leftFingerNames setLeftHeight s).2).filter
        (fun g => onRightSide g.finger) = [] := by
    rw [List.filter_eq_nil_iff]
    intro g hg
    have hmem := processSide_finger lh now leftFingerNames setLeftHeight s (by decide) g hg
    have hdisj : ∀ k : FingerKey, k ∈ leftFingerNames → onRightSide k = false := by decide
    simp [hdisj g.finger hmem]
  have h2 : ((releaseAllSustained rightFingerNames
        (processSide lh now leftFingerNames setLeftHeight s).1).2).filter
        (fun g => onRightSide g.finger)
      = (releaseAllSustained rightFingerNames
          (processSide lh now leftFingerNames setLeftHeight s).1).2 := by
    rw [List.filter_eq_self]
    intro g hg
    have hmem := releaseAllSustained_finger rightFingerNames _ g hg
    simp [onRightSide, hmem]
  rw [h1, h2, List.nil_append]
  rw [releaseAllSustained_events rightFingerNames _ (by decide)]
  congr 1
  apply List.filter_congr
  intro k hk
  have hkl : k ∉ leftFingerNames := by
    have hdisj : ∀ k2 : FingerKey, k2 ∈ rightFingerNames → k2 ∉ leftFingerNames := by decide
    exact hdisj k hk
  rw [(processSide_other_keys lh now leftFingerNames setLeftHeight s k (by decide) hkl
    (fun s2 y => rfl) (fun s2 y => rfl)).1]

set_option maxRecDepth 100000 in
/-- C1, counterexample: with only `left_thumb` sustained and the left
hand absent, the frame's event list does not contain one release event
for every one of the five left slots — the claim fails at this input
(only the sustained slot gets a release). -/
theorem C1_counterexample :
    ¬ (∀ k ∈ leftFingerNames,
        ((detectAllFingerGestures none none 1 singleSustainedState).2.filter
          (fun g => decide (g.finger = k) && (g.active == false))).length = 1) := by
  with_unfolding_all decide

/-- C1 (amended): in a frame whose left (resp. right) hand is absent,
the events for that side are exactly one release gesture
(`active = false`, `note = null`) per slot of that side currently holding
a Sustained Note, in slot order — so no activation events for that side,
and no events for that side's unsustained slots. -/
theorem C1_release_on_loss (s : GestureState) (lh rh : Option NormalizedLandmarkList)
    (now : ℚ) :
    (detectAllFingerGestures none rh now s).2.filter (fun g => onLeftSide g.finger) =
      (leftFingerNames.filter (fun k => (mapFind s.sustainedFingers k).isSome)).map
        releaseGesture
    ∧ (detectAllFingerGestures lh none now s).2.filter (fun g => onRightSide g.finger) =
      (rightFingerNames.filter (fun k => (mapFind s.sustainedFingers k).isSome)).map
        releaseGesture :=
  ⟨detect_leftAbsent_filter rh now s, detect_rightAbsent_filter lh now s⟩

set_option maxRecDepth 100000 in
/-- C2, code-bug demonstration: the same Piano note `"D4"` held by an
unchanged hand over two consecutive frames emits a second `noteStarted`
(and a spurious release) on the second frame, although the slot's
sustained state is unchanged between the frames: `playInstrument` stores
the enhanced note `"E4"` but compares it against the raw incoming note
`"D4"`, so the held note re-attacks every frame. -/
theorem C2_duplicate_noteOn :
    pianoFrame1.2 = [.noteStarted .Piano "E4" 1]
    ∧ pianoFrame2.2 = [.noteStopped .Piano "E4", .noteStarted .Piano "E4" 1]
    ∧ mapFind pianoFrame1.1.1.sustainedFingers .left_middle = some ⟨"D4", 1, 0⟩
    ∧ mapFind pianoFrame2.1.1.sustainedFingers .left_middle = some ⟨"D4", 1, 0⟩ := by
  with_unfolding_all decide

/-- C3, code-bug demonstration: two consecutive `playInstrument` calls
for the Piano slot with the identical note `"D4"` and no release in
between emit two `noteStarted` events, not one — the second call is not
a no-op, because the engine compares the raw note `"D4"` against the
stored musically-enhanced note `"E4"`. -/
theorem C3_second_call_retriggers :
    pianoPlay1.2 = [.noteStarted .Piano "E4" 0.7]
    ∧ pianoPlay2.2 = [.noteStopped .Piano "E4", .noteStarted .Piano "E4" 0.7]
    ∧ pianoPlay2.1 = pianoPlay1.1 := by
  with_unfolding_all decide

set_option maxRecDepth 100000 in
/-- C4, counterexample: a frame with the left thumb extended gives the
`left_thumb` slot a stability counter of 1; processing the next frame
with the left hand absent leaves that counter at 1 — it is not zeroed. -/
theorem C4_counterexample :
    (mapFind (detectAllFingerGestures none none 1 frameOneState).1.gestureStability
      FingerKey.left_thumb).map Stability.consecutiveFrames = some 1
    ∧ ¬ ((mapFind (detectAllFingerGestures none none 1 frameOneState).1.gestureStability
      FingerKey.left_thumb).map Stability.consecutiveFrames = some 0) := by
  with_unfolding_all decide

/-- C4 (amended): a frame processed with a side's hand absent leaves the
Stability State of every slot of that side exactly as it was before the
frame (stale counters persist; nothing zeroes them). -/
theorem C4_stability_unchanged_on_loss (s : GestureState)
    (lh rh : Option NormalizedLandmarkList) (now : ℚ) :
    (∀ k, k ∈ leftFingerNames →
      mapFind (detectAllFingerGestures none rh now s).1.gestureStability k
        = mapFind s.gestureStability k)
    ∧ (∀ k, k ∈ rightFingerNames →
      mapFind (detectAllFingerGestures lh none now s).1.gestureStability k
        = mapFind s.gestureStability k) := by
  constructor
  · intro k hk
    unfold detectAllFingerGestures
    dsimp only
    rw [processSide_none]
    have hkr : k ∉ rightFingerNames :=
      (by decide : ∀ k2 : FingerKey, k2 ∈ leftFingerNames → k2 ∉ rightFingerNames) k hk
    rw [(processSide_other_keys rh now rightFingerNames setRightHeight _ k (by decide) hkr
      (fun s2 y => rfl) (fun s2 y => rfl)).2]
    rw [(releaseAllSustained_untouched leftFingerNames s).1]
  · intro k hk
    unfold detectAllFingerGestures
    dsimp only
    rw [processSide_none]
    rw [(releaseAllSustained_untouched rightFingerNames _).1]
    have hkl : k ∉ leftFingerNames :=
      (by decide : ∀ k2 : FingerKey, k2 ∈ rightFingerNames → k2 ∉ leftFingerNames) k hk
    exact (processSide_other_keys lh now leftFingerNames setLeftHeight s k (by decide) hkl
      (fun s2 y => rfl) (fun s2 y => rfl)).2

/-- Witness for the amended C4 theorem at a concrete state. -/
theorem C4_stability_unchanged_on_loss_witness :
    FingerKey.left_thumb ∈ leftFingerNames
    ∧ mapFind (detectAllFingerGestures none none 1 singleSustainedState).1.gestureStability
        FingerKey.left_thumb = mapFind singleSustainedState.gestureStability
        FingerKey.left_thumb :=
  ⟨by decide,
   (C4_stability_unchanged_on_loss singleSustainedState none none 1).1
     FingerKey.left_thumb (by decide)⟩

/-- C5, counterexample: the secondary confidence threshold of the
stability tracker (0.3) is not greater than or equal to the primary
activation threshold of the extension detector (0.4). -/
theorem C5_counterexample : ¬ (stabilityConfidenceThreshold ≥ activationThreshold) := by
  with_unfolding_all decide

/-- C5 (amended): the secondary confidence threshold (0.3) is strictly
below the primary activation threshold (0.4); nevertheless the stability
increment condition implies the detector's activation decision, because
it conjoins the `extended` flag itself (the extra confidence comparison
is redundant). -/
theorem C5_increment_implies_activation :
    stabilityConfidenceThreshold < activationThreshold
    ∧ ∀ (hand : NormalizedLandmarkList) (fingerIndex : ℕ),
        stabilityIncrementCondition hand fingerIndex = true →
        (isFingerExtended hand fingerIndex).extended = true := by
  constructor
  · with_unfolding_all decide
  · intro hand i h
    unfold stabilityIncrementCondition at h
    exact ((Bool.and_eq_true _ _).mp h).1

/-- Witness for the amended C5 theorem: the extended demo thumb
satisfies the increment condition, hence the activation decision. -/
theorem C5_increment_implies_activation_witness :
    stabilityIncrementCondition demoThumbHand 0 = true
    ∧ (isFingerExtended demoThumbHand 0).extended = true :=
  ⟨by with_unfolding_all decide,
   C5_increment_implies_activation.2 demoThumbHand 0 (by with_unfolding_all decide)⟩

/-- C6, code-bug demonstration: the quantizer output for the Bass
instrument is `"C21"` — a pitch name followed by two digits, not a pitch
name plus exactly one octave digit, because the Bass scale entries
already carry the octave suffix `'2'` and `quantizePitch` appends a
second octave digit. -/
theorem C6_bass_malformed_note :
    quantizePitch 0 .Bass 0 = "C21"
    ∧ ("C21".data.filter Char.isDigit).length = 2 := by
  with_unfolding_all decide

/-- C9: a left-hand array with fewer than 21 landmarks is treated
identically to an absent left hand — the whole frame result (state and
event list) coincides with the absent-hand run, and the left-side events
are exactly the releases of the currently sustained left slots (so no
left-side slot can activate). -/
theorem C9_short_hand_treated_as_absent (hand : NormalizedLandmarkList)
    (rh : Option NormalizedLandmarkList) (now : ℚ) (s : GestureState)
    (hlen : hand.length < 21) :
    detectAllFingerGestures (some hand) rh now s = detectAllFingerGestures none rh now s
    ∧ (detectAllFingerGestures (some hand) rh now s).2.filter (fun g => onLeftSide g.finger) =
        (leftFingerNames.filter (fun k => (mapFind s.sustainedFingers k).isSome)).map
          releaseGesture := by
  have heq : detectAllFingerGestures (some hand) rh now s
      = detectAllFingerGestures none rh now s := by
    unfold detectAllFingerGestures
    dsimp only
    rw [processSide_none]
    have hshort : processSide (some hand) now leftFingerNames setLeftHeight s
        = releaseAllSustained leftFingerNames s := by
      simp only [processSide]
      rw [if_neg (by omega)]
    rw [hshort]
  refine ⟨heq, ?_⟩
  rw [heq]
  exact detect_leftAbsent_filter rh now s

theorem estimateBeat_firstFrame (y now : ℚ) (ld : Option BeatDirection) (lbt : Option ℚ)
    (ivs : List ℚ) :
    estimateBeat y now ⟨none, ld, lbt, ivs⟩ = (⟨some y, ld, lbt, ivs⟩, none) := rfl

theorem estimateBeat_down (y now ly : ℚ) (ld : Option BeatDirection) (lbt : Option ℚ)
    (ivs : List ℚ) (hdy : 0 < y - ly) :
    estimateBeat y now ⟨some ly, ld, lbt, ivs⟩ = (⟨some y, some .down, lbt, ivs⟩, none) := by
  simp only [estimateBeat, beatDirectionOf, if_pos hdy]
  cases ld with
  | none => rfl
  | some d => simp

theorem estimateBeat_up_after_up (y now ly : ℚ) (lbt : Option ℚ) (ivs : List ℚ)
    (hdy : ¬ 0 < y - ly) :
    estimateBeat y now ⟨some ly, some .up, lbt, ivs⟩ = (⟨some y, some .up, lbt, ivs⟩, none) := by
  simp only [estimateBeat, beatDirectionOf, if_neg hdy]
  simp

theorem estimateBeat_up_noDirection (y now ly : ℚ) (lbt : Option ℚ) (ivs : List ℚ)
    (hdy : ¬ 0 < y - ly) :
    estimateBeat y now ⟨some ly, none, lbt, ivs⟩ = (⟨some y, some .up, lbt, ivs⟩, none) := by
  simp only [estimateBeat, beatDirectionOf, if_neg hdy]
  rfl

theorem estimateBeat_up_noPrevBeat (y now ly : ℚ) (ivs : List ℚ) (hdy : ¬ 0 < y - ly) :
    estimateBeat y now ⟨some ly, some .down, none, ivs⟩
      = (⟨some y, some .up, some now, ivs⟩, none) := by
  simp only [estimateBeat, beatDirectionOf, if_neg hdy]
  simp [truthyTime]

theorem estimateBeat_fire (y now ly t : ℚ) (ivs : List ℚ) (ht : t ≠ 0) (hdy : ¬ 0 < y - ly) :
    estimateBeat y now ⟨some ly, some .down, some t, ivs⟩
      = (⟨some y, some .up, some now,
          if 6 < (ivs ++ [now - t]).length then (ivs ++ [now - t]).tail
          else ivs ++ [now - t]⟩,
         some (60000 /
           ((if 6 < (ivs ++ [now - t]).length then (ivs ++ [now - t]).tail
             else ivs ++ [now - t]).sum /
            (((if 6 < (ivs ++ [now - t]).length then (ivs ++ [now - t]).tail
               else ivs ++ [now - t]).length : ℕ) : ℚ)))) := by
  simp only [estimateBeat, beatDirectionOf, if_neg hdy]
  simp [truthyTime, ht]

/-- Witness for the C9 theorem at a concrete malformed (empty) hand. -/
theorem C9_short_hand_treated_as_absent_witness :
    ([] : NormalizedLandmarkList).length < 21
    ∧ (detectAllFingerGestures (some []) none 1 singleSustainedState
        = detectAllFingerGestures none none 1 singleSustainedState
      ∧ (detectAllFingerGestures (some []) none 1 singleSustainedState).2.filter
          (fun g => onLeftSide g.finger) =
        (leftFingerNames.filter
          (fun k => (mapFind singleSustainedState.sustainedFingers k).isSome)).map
          releaseGesture) :=
  ⟨by decide, C9_short_hand_treated_as_absent [] none 1 singleSustainedState (by decide)⟩

/-- C10: a frame whose wrist y equals the previous frame's y has delta
zero and is classified as direction `up`; from a remembered `down`
direction this fires a beat — the state's beat timestamp becomes `now`
(whatever the previous beat history) and the direction flips to `up`,
although no upward motion occurred. -/
theorem C10_zero_delta_fires_beat (y now : ℚ) (lbt : Option ℚ) (ivs : List ℚ) :
    beatDirectionOf 0 = BeatDirection.up
    ∧ (estimateBeat y now ⟨some y, some .down, lbt, ivs⟩).1.lastBeatTime = some now
    ∧ (estimateBeat y now ⟨some y, some .down, lbt, ivs⟩).1.lastDirection
        = some BeatDirection.up := by
  have hdy : ¬ 0 < y - y := by simp
  refine ⟨by simp [beatDirectionOf], ?_, ?_⟩ <;>
  · cases lbt with
    | none => rw [estimateBeat_up_noPrevBeat y now y ivs hdy]
    | some t =>
        by_cases ht : t = 0
        · subst ht
          simp only [estimateBeat, beatDirectionOf, if_neg hdy]
          simp [truthyTime]
        · rw [estimateBeat_fire y now y t ivs ht hdy]

theorem runBeats_invariant (lo hi T : ℚ) (hT : 0 < T) (hlh : lo < hi) :
    ∀ k : ℕ, 1 ≤ k →
      runEstimator (beatFrames lo hi (T / 2) (2 * k + 1)) (initBeatState, none)
        = (⟨some lo, some .up, some (((2 * k : ℕ) : ℚ) * (T / 2)),
            List.replicate (min (k - 1) 6) T⟩,
           if k = 1 then none else some (60000 / T)) := by
  intro k hk
  induction k with
  | zero => omega
  | succ n ih =>
      by_cases hn : n = 0
      · subst hn
        show runEstimator (beatFrames lo hi (T / 2) 3) (initBeatState, none) = _
        have h3 : beatFrames lo hi (T / 2) 3
            = [(lo, ((0 : ℕ) : ℚ) * (T / 2)), (hi, ((1 : ℕ) : ℚ) * (T / 2)),
               (lo, ((2 : ℕ) : ℚ) * (T / 2))] := by
          unfold beatFrames
          rfl
        rw [h3]
        unfold runEstimator initBeatState
        simp only [List.foldl_cons, List.foldl_nil]
        rw [estimateBeat_firstFrame]
        rw [estimateBeat_down _ _ _ _ _ _ (by linarith)]
        rw [estimateBeat_up_noPrevBeat _ _ _ _ (by linarith)]
        norm_num
      · have hn1 : 1 ≤ n := by omega
        have ih2 := ih hn1
        have hsplit : beatFrames lo hi (T / 2) (2 * (n + 1) + 1)
            = beatFrames lo hi (T / 2) (2 * n + 1) ++
              [(hi, ((2 * n + 1 : ℕ) : ℚ) * (T / 2)),
               (lo, ((2 * n + 2 : ℕ) : ℚ) * (T / 2))] := by
          unfold beatFrames
          rw [show 2 * (n + 1) + 1 = (2 * n + 1) + 1 + 1 from by ring, List.range_succ,
            List.range_succ, List.map_append, List.map_append]
          simp only [List.map_cons, List.map_nil]
          rw [if_neg (by omega), if_pos (by omega), List.append_assoc]
          rfl
        rw [hsplit]
        unfold runEstimator at ih2 ⊢
        rw [List.foldl_append, ih2]
        simp only [List.foldl_cons, List.foldl_nil]
        rw [estimateBeat_down _ _ _ _ _ _ (by linarith)]
        have hbt : (((2 * n : ℕ) : ℚ) * (T / 2)) ≠ 0 := by
          have : (0 : ℚ) < ((2 * n : ℕ) : ℚ) * (T / 2) := by
            apply mul_pos _ (by linarith)
            have : (1 : ℚ) ≤ ((2 * n : ℕ) : ℚ) := by
              exact_mod_cast Nat.one_le_iff_ne_zero.mpr (by omega)
            linarith
          linarith
        rw [estimateBeat_fire _ _ _ _ _ hbt (by linarith)]
        have hinterval : ((2 * n + 2 : ℕ) : ℚ) * (T / 2) - ((2 * n : ℕ) : ℚ) * (T / 2)
            = T := by
          push_cast
          ring
        rw [hinterval]
        have hrep : List.replicate (min (n - 1) 6) T ++ [T]
            = List.replicate (min (n - 1) 6 + 1) T := by
          rw [List.replicate_succ']
        rw [hrep]
        by_cases hbig : 7 ≤ n
        · have hmin : min (n - 1) 6 = 6 := by omega
          rw [hmin]
          rw [if_pos (by simp)]
          have htail : (List.replicate 7 T).tail = List.replicate 6 T := rfl
          have hmin2 : min ((n + 1) - 1) 6 = 6 := by omega
          rw [show (6 : ℕ) + 1 = 7 from rfl, htail, hmin2]
          have hsum : (List.replicate 6 T).sum = 6 * T := by
            simp [List.sum_replicate, nsmul_eq_mul]
            ring
          rw [hsum]
          have hlen6 : ((List.replicate 6 T).length : ℚ) = 6 := by simp
          rw [hlen6]
          have havg : (6 : ℚ) * T / 6 = T := by ring
          rw [havg, if_neg (by omega)]
          have hcast : ((2 * n + 2 : ℕ) : ℚ) = ((2 * (n + 1) : ℕ) : ℚ) := by
            push_cast
            ring
          rw [hcast]
        · have hmin : min (n - 1) 6 = n - 1 := by omega
          rw [hmin]
          have hn6 : n - 1 + 1 = n := by omega
          rw [hn6]
          rw [if_neg (by simp; omega)]
          have hmin2 : min ((n + 1) - 1) 6 = n := by omega
          rw [hmin2]
          have hsum : (List.replicate n T).sum = (n : ℚ) * T := by
            simp [List.sum_replicate, nsmul_eq_mul]
          rw [hsum]
          have hlenn : ((List.replicate n T).length : ℚ) = (n : ℚ) := by simp
          rw [hlenn]
          have hnne : ((n : ℕ) : ℚ) ≠ 0 := by
            exact_mod_cast (by omega : n ≠ 0)
          have havg : (n : ℚ) * T / (n : ℚ) = T := by
            field_simp
          rw [havg, if_neg (by omega)]
          have hcast : ((2 * n + 2 : ℕ) : ℚ) = ((2 * (n + 1) : ℕ) : ℚ) := by
            push_cast
            ring
          rw [hcast]

/-- C7: for every x in [0,1], every instrument and finger index, the
scale-degree index of the quantizer equals floor(x * scaleLength)
clamped to [0, scaleLength-1]; it is nonnegative, at most
scaleLength-1, and in bounds for indexing — including at x = 0 and
x = 1 exactly. -/
theorem C7_scale_index_clamped (x : ℚ) (instrument : FingerInstrument) (fingerIndex : ℕ)
    (h0 : 0 ≤ x) (h1 : x ≤ 1) :
    scaleIndex x (getScaleForInstrument instrument).length
      = min (((getScaleForInstrument instrument).length : ℤ) - 1)
          (max 0 ⌊x * ((getScaleForInstrument instrument).length : ℚ)⌋)
    ∧ 0 ≤ scaleIndex x (getScaleForInstrument instrument).length
    ∧ scaleIndex x (getScaleForInstrument instrument).length
        ≤ ((getScaleForInstrument instrument).length : ℤ) - 1
    ∧ (scaleIndex x (getScaleForInstrument instrument).length).toNat
        < (getScaleForInstrument instrument).length := by
  have hlen : 1 ≤ (getScaleForInstrument instrument).length := by
    cases instrument <;> decide
  have ha : (0 : ℤ) ≤ scaleIndex x (getScaleForInstrument instrument).length :=
    le_min (by omega) (le_max_left 0 _)
  have hb : scaleIndex x (getScaleForInstrument instrument).length
      ≤ ((getScaleForInstrument instrument).length : ℤ) - 1 := min_le_left _ _
  exact ⟨rfl, ha, hb, by omega⟩

/-- Witness for the C7 theorem at the right edge x = 1 on the Piano
scale (length 7): the selected index is 6, the last valid one. -/
theorem C7_scale_index_clamped_witness :
    (0 : ℚ) ≤ 1 ∧ (1 : ℚ) ≤ 1
    ∧ scaleIndex 1 (getScaleForInstrument .Piano).length
        ≤ ((getScaleForInstrument .Piano).length : ℤ) - 1
    ∧ scaleIndex 1 (getScaleForInstrument .Piano).length = 6 :=
  ⟨by norm_num, by norm_num,
   (C7_scale_index_clamped 1 .Piano 4 (by norm_num) (by norm_num)).2.2.1,
   by with_unfolding_all decide⟩

/-- C8: the estimator returns a BPM exactly when the frame is a
down-to-up reversal and a previous beat timestamp exists; on such a
beat the inter-beat interval is pushed into the sliding window (capped
at 6 entries) and the BPM is 60000 divided by the window's arithmetic
mean; and on the synthetic periodic conducting input of period T the
output at every beat from the second onward is exactly 60000 / T. -/
theorem C8_beat_estimator (s : BeatEstimatorState) (y now : ℚ)
    (hlen : s.intervals.length ≤ 6) (hbt : s.lastBeatTime ≠ some 0) :
    (estimateBeat y now s).2.isSome = (beatFires y s && s.lastBeatTime.isSome)
    ∧ (∀ t : ℚ, beatFires y s = true → s.lastBeatTime = some t →
        (estimateBeat y now s).1.intervals =
          (if 6 < (s.intervals ++ [now - t]).length then (s.intervals ++ [now - t]).tail
           else s.intervals ++ [now - t])
        ∧ (estimateBeat y now s).1.intervals.length ≤ 6
        ∧ (estimateBeat y now s).2
            = some (60000 / ((estimateBeat y now s).1.intervals.sum /
                ((estimateBeat y now s).1.intervals.length : ℚ))))
    ∧ (∀ (T lo hi : ℚ) (k : ℕ), 0 < T → lo < hi → 2 ≤ k →
        (runEstimator (beatFrames lo hi (T / 2) (2 * k + 1)) (initBeatState, none)).2
          = some (60000 / T)) := by
  obtain ⟨ly0, ld0, bt0, ivs0⟩ := s
  refine ⟨?_, ?_, ?_⟩
  · cases ly0 with
    | none => simp [estimateBeat_firstFrame, beatFires]
    | some ly =>
        by_cases hdy : 0 < y - ly
        · cases ld0 with
          | none =>
              rw [estimateBeat_down y now ly none bt0 ivs0 hdy]
              simp [beatFires]
          | some d =>
              rw [estimateBeat_down y now ly (some d) bt0 ivs0 hdy]
              cases d <;> simp [beatFires, not_le.mpr hdy]
        · cases ld0 with
          | none =>
              rw [estimateBeat_up_noDirection y now ly bt0 ivs0 hdy]
              simp [beatFires]
          | some d =>
              cases d with
              | up =>
                  rw [estimateBeat_up_after_up y now ly bt0 ivs0 hdy]
                  simp [beatFires]
              | down =>
                  cases bt0 with
                  | none =>
                      rw [estimateBeat_up_noPrevBeat y now ly ivs0 hdy]
                      simp [beatFires]
                  | some t =>
                      have ht : t ≠ 0 := fun hc => hbt (by simp [hc])
                      rw [estimateBeat_fire y now ly t ivs0 ht hdy]
                      simp [beatFires, not_lt.mp hdy]
  · intro t hfire hbteq
    cases ly0 with
    | none => simp [beatFires] at hfire
    | some ly =>
        cases ld0 with
        | none => simp [beatFires] at hfire
        | some d =>
            cases d with
            | up => simp [beatFires] at hfire
            | down =>
                have hdy : ¬ 0 < y - ly := by
                  simp only [beatFires, decide_eq_true_eq] at hfire
                  exact not_lt.mpr hfire
                cases bt0 with
                | none => exact absurd hbteq (by simp)
                | some t0 =>
                    have htt : t0 = t := by
                      simpa using hbteq
                    subst htt
                    have ht : t0 ≠ 0 := fun hc => hbt (by simp [hc])
                    rw [estimateBeat_fire y now ly t0 ivs0 ht hdy]
                    refine ⟨rfl, ?_, rfl⟩
                    simp only
                    split_ifs with hsz
                    · simp only [List.length_tail, List.length_append,
                        List.length_singleton]
                      simp at hlen ⊢
                      omega
                    · simp at hlen hsz ⊢
                      omega
  · intro T lo hi k hT hlh hk2
    have hk1 : ¬ k = 1 := by omega
    rw [runBeats_invariant lo hi T hT hlh k (by omega)]
    simp [hk1]

/-- Witness for the C8 theorem at a concrete state holding one interval
and a previous beat at t = 5, with a flat frame at y = 1, and a
periodic input of period 600. -/
theorem C8_beat_estimator_witness :
    ([(5 : ℚ)] : List ℚ).length ≤ 6
    ∧ (some (5 : ℚ) ≠ some 0)
    ∧ (estimateBeat 1 8 ⟨some 1, some .down, some 5, [5]⟩).2.isSome
        = (beatFires 1 ⟨some 1, some .down, some 5, [5]⟩
            && (some (5 : ℚ)).isSome)
    ∧ beatFires 1 ⟨some 1, some .down, some 5, [5]⟩ = true
    ∧ (estimateBeat 1 8 ⟨some 1, some .down, some 5, [5]⟩).1.intervals.length ≤ 6
    ∧ (runEstimator (beatFrames 0 1 (600 / 2) (2 * 2 + 1)) (initBeatState, none)).2
        = some (60000 / 600) := by
  obtain ⟨ha, hb, hc⟩ := C8_beat_estimator ⟨some 1, some .down, some 5, [5]⟩ 1 8
    (by decide) (by with_unfolding_all decide)
  exact ⟨by decide, by with_unfolding_all decide, ha, by with_unfolding_all decide,
    (hb 5 (by with_unfolding_all decide) (by decide)).2.1,
    hc 600 0 1 2 (by norm_num) (by norm_num) (by norm_num)⟩

end AirConductor
